import Mathlib

/-!
Shallow embedding of the mercadopublico-scraper core in Lean 4.

Modelled components and their sources:
* Token Lifecycle Manager  — token-manager.js (getValidToken, inspectToken helpers,
  requestTokenRefresh, persistRefreshedTokens, upsertCookie, findCookie,
  normalizeEpochSeconds, secondsRemaining).
* Resilient Request Executor — scraper-final.js (fetchOpportunities retry loop,
  requestOpportunities outcome classification).
* Paginated Crawl Controller — scraper-final.js (scrape page loop).
* Enrichment Batcher — enricher.js (shouldEnrich, enrichSingle, enrichOpportunities).
* Session Health Classifier — session-monitor.js (classify, probe override in main).

File reads, HTTP exchanges and JWT base64 decoding are abstracted into explicit
inputs (the parsed cookie list, an attempt-outcome oracle, a decode oracle):
each modelled function is a pure function of those inputs, exactly mirroring the
control flow of the JavaScript source.  Machine numbers are Int / Nat; JavaScript
falsiness of 0, null and the empty string is modelled explicitly where the code
relies on it.
-/

namespace MP

/-- A named record of the persisted credential bundle (one entry of
session.json cookies). -/
structure Cookie where
  name : String
  value : String
  domain : String
  cookiePath : String
  httpOnly : Bool
  secure : Bool
  sameSite : String
  expires : Option Int
  deriving Repr, DecidableEq

/-- normalizeEpochSeconds from token-manager.js: non-finite values are null,
and only strictly positive (floored) epochs survive. -/
def normalizeEpochSeconds : Option Int → Option Int
  | none => none
  | some v => if 0 < v then some v else none

/-- secondsRemaining from token-manager.js: a null expiry — and, through
JavaScript falsiness, the epoch 0 — yields null. -/
def secondsRemaining (exp : Option Int) (now : Int) : Option Int :=
  match exp with
  | none => none
  | some e => if e = 0 then none else some (e - now)

/-- JavaScript a || b on a possibly-null number: null and 0 are falsy and
fall through to the right operand. -/
def jsOrExp : Option Int → Option Int → Option Int
  | some v, b => if v = 0 then b else some v
  | none, b => b

/-- findCookie from token-manager.js: first cookie whose name is the first
alias, else the next alias, and so on. -/
def findCookie (cookies : List Cookie) (names : List String) : Option Cookie :=
  match names with
  | [] => none
  | n :: rest =>
    match cookies.find? (fun c => c.name = n) with
    | some c => some c
    | none => findCookie cookies rest

/-- The two error classes of token-manager.js.  Both carry
requiresManualReauth = true; messages are omitted. -/
inductive TokErr where
  | tokenExpired
  | tokenRefresh
  deriving Repr, DecidableEq

/-- Both TokenExpiredError and TokenRefreshError set requiresManualReauth. -/
def TokErr.requiresManualReauth : TokErr → Bool := fun _ => true

/-- Parsed JSON body of a refresh-grant response (token-manager.js).  Absent
fields are none. -/
structure RefreshPayload where
  access_token : Option String
  refresh_token : Option String
  expires_in : Option Int
  refresh_expires_in : Option Int
  deriving Repr, DecidableEq

/-- Outcome of the single refresh-grant HTTP exchange: a network-level
failure (error event or timeout), or a status plus the parse result of the
body (none = JSON.parse threw). -/
inductive RefreshHttp where
  | netFail
  | response (status : Nat) (body : Option RefreshPayload)
  deriving Repr, DecidableEq

/-- requestTokenRefresh from token-manager.js: non-200 status, unparseable
body, and a missing or empty access_token all reject with TokenRefreshError;
the request is issued exactly once and never retried. -/
def requestTokenRefresh : RefreshHttp → Except TokErr RefreshPayload
  | .netFail => .error .tokenRefresh
  | .response status body =>
    if status ≠ 200 then .error .tokenRefresh
    else
      match body with
      | none => .error .tokenRefresh
      | some p =>
        match p.access_token with
        | none => .error .tokenRefresh
        | some tok => if tok = "" then .error .tokenRefresh else .ok p

/-- Update the first cookie with the given name (Array.prototype.find returns
the first match, which the code then mutates). -/
def updateFirst (cookies : List Cookie) (name : String) (f : Cookie → Cookie) :
    List Cookie :=
  match cookies with
  | [] => []
  | c :: rest =>
    if c.name = name then f c :: rest else c :: updateFirst rest name f

/-- upsertCookie from token-manager.js: update the first existing cookie of
that name (keeping its old expiry when the new one does not normalize), else
append a synthetic cookie built from the template with the documented
defaults. -/
def upsertCookie (cookies : List Cookie) (name : String) (value : String)
    (exp : Option Int) (template : Option Cookie) : List Cookie :=
  let expires := normalizeEpochSeconds exp
  if (cookies.find? (fun c => c.name = name)).isSome then
    updateFirst cookies name (fun c =>
      { c with
        value := value
        expires := if expires.isSome then expires else c.expires })
  else
    cookies ++ [{
      name := name
      value := value
      domain := match template with
        | some t => if t.domain = "" then "heimdall.mercadopublico.cl" else t.domain
        | none => "heimdall.mercadopublico.cl"
      cookiePath := match template with
        | some t => if t.cookiePath = "" then "/" else t.cookiePath
        | none => "/"
      httpOnly := match template with
        | some t => t.httpOnly
        | none => true
      secure := match template with
        | some t => t.secure
        | none => true
      sameSite := match template with
        | some t => if t.sameSite = "" then "Lax" else t.sameSite
        | none => "Lax"
      expires := match expires with
        | some e => some e
        | none => some (-1) }]

/-- persistRefreshedTokens from token-manager.js, returning the rewritten
cookie list.  jwtExp is the decodeJwtExp oracle (what decoding the given
token string yields). -/
def persistRefreshedTokens (jwtExp : String → Option Int) (now : Int)
    (cookies : List Cookie) (refreshed : RefreshPayload) (fallback : Cookie) :
    List Cookie :=
  let accessToken := match refreshed.access_token with
    | some s => s
    | none => ""
  let refreshToken := match refreshed.refresh_token with
    | some s => if s = "" then fallback.value else s
    | none => fallback.value
  let accessExp := jsOrExp (jwtExp accessToken)
    (match refreshed.expires_in with
      | some e => some (now + e)
      | none => none)
  let refreshExp := jsOrExp (jwtExp refreshToken)
    (match refreshed.refresh_expires_in with
      | some e => some (now + e)
      | none => normalizeEpochSeconds fallback.expires)
  let accessTemplate :=
    findCookie cookies ["access_token_ccr", "access_token", "KEYCLOAK_IDENTITY"]
  let cs1 := upsertCookie cookies "access_token_ccr" accessToken accessExp accessTemplate
  let cs2 := upsertCookie cs1 "access_token" accessToken accessExp accessTemplate
  upsertCookie cs2 "refresh_token" refreshToken refreshExp (some fallback)

/-- The access cookie value, if an access cookie is found (alias priority
access_token_ccr, then access_token). -/
def accessTokenOf (cookies : List Cookie) : Option String :=
  (findCookie cookies ["access_token_ccr", "access_token"]).map (fun c => c.value)

/-- The expiry the code computes for the current access token: the JWT
payload exp when decodable (decodeJwtExp guards null and non-string tokens),
else the cookie expiry attribute, with JavaScript || falsiness for 0. -/
def accessExpOf (jwtExp : String → Option Int) (cookies : List Cookie) :
    Option Int :=
  let accessCookie := findCookie cookies ["access_token_ccr", "access_token"]
  jsOrExp
    (match accessCookie with
      | some c => if c.value = "" then none else jwtExp c.value
      | none => none)
    (normalizeEpochSeconds (accessCookie.bind (fun c => c.expires)))

/-- Remaining validity of the current access token as getValidToken
computes it. -/
def accessRemaining (jwtExp : String → Option Int) (now : Int)
    (cookies : List Cookie) : Option Int :=
  secondsRemaining (accessExpOf jwtExp cookies) now

/-- ACCESS_MIN_VALIDITY_SECONDS from token-manager.js. -/
def ACCESS_MIN_VALIDITY_SECONDS : Int := 300

/-- The fast-path guard of getValidToken: accessToken truthy, remaining
non-null and strictly above the minimum validity. -/
def fastPathOk (jwtExp : String → Option Int) (now : Int)
    (cookies : List Cookie) : Bool :=
  match accessTokenOf cookies, accessRemaining jwtExp now cookies with
  | some tok, some r => tok != "" && decide (r > ACCESS_MIN_VALIDITY_SECONDS)
  | _, _ => false

/-- Observable trace of one getValidToken call: the returned token or error,
how many refresh-grant requests were issued, the cookie list as persisted
after the call, and whether the session file was rewritten. -/
structure TokenTrace where
  result : Except TokErr String
  refreshCalls : Nat
  sessionAfter : List Cookie
  wrote : Bool
  deriving Repr

/-- The refresh branch of getValidToken: require a refresh cookie with a
truthy value, issue exactly one refresh-grant request, propagate its failure,
and on success persist both tokens and return the new access token. -/
def refreshPath (jwtExp : String → Option Int)
    (refreshHttp : String → RefreshHttp) (now : Int)
    (cookies : List Cookie) : TokenTrace :=
  match findCookie cookies ["refresh_token"] with
  | none => ⟨.error .tokenExpired, 0, cookies, false⟩
  | some rc =>
    if rc.value = "" then ⟨.error .tokenExpired, 0, cookies, false⟩
    else
      match requestTokenRefresh (refreshHttp rc.value) with
      | .error e => ⟨.error e, 1, cookies, false⟩
      | .ok payload =>
        let newCookies := persistRefreshedTokens jwtExp now cookies payload rc
        ⟨.ok (match payload.access_token with
          | some s => s
          | none => ""), 1, newCookies, true⟩

/-- getValidToken from token-manager.js, over the parsed cookie list, the JWT
decode oracle and the refresh HTTP oracle. -/
def getValidToken (jwtExp : String → Option Int)
    (refreshHttp : String → RefreshHttp) (now : Int)
    (cookies : List Cookie) : TokenTrace :=
  if fastPathOk jwtExp now cookies then
    ⟨.ok (match accessTokenOf cookies with
      | some t => t
      | none => ""), 0, cookies, false⟩
  else
    refreshPath jwtExp refreshHttp now cookies

/-! ## Resilient Request Executor (scraper-final.js) -/

/-- What the server does on one attempt: an HTTP response with a status and
whether its body parses as JSON, or a network-level failure (timeout or
connection error, both marked retryable by the source). -/
inductive AttemptOutcome where
  | response (status : Nat) (parseOk : Bool)
  | netError
  deriving Repr, DecidableEq

/-- The error classes an attempt can produce in requestOpportunities:
TokenExpiredError on 401, a parse error on unparseable 200 bodies, an HTTP
error carrying its status otherwise, a network error, and the unreachable
post-loop failure of fetchOpportunities. -/
inductive FetchErr where
  | tokenExpired
  | parseFail
  | httpErr (status : Nat)
  | netFail
  | exhausted
  deriving Repr, DecidableEq

/-- requestOpportunities from scraper-final.js: classify one exchange. -/
def requestOpportunities : AttemptOutcome → Except FetchErr Unit
  | .netError => .error .netFail
  | .response status parseOk =>
    if status = 200 then
      if parseOk then .ok () else .error .parseFail
    else if status = 401 then .error .tokenExpired
    else .error (.httpErr status)

/-- The retryable flag the source attaches to each error object: parse errors
are marked non-retryable, HTTP errors are retryable exactly for 5xx, network
errors are retryable; TokenExpiredError carries no flag (undefined, falsy). -/
def retryableFlag : FetchErr → Bool
  | .tokenExpired => false
  | .parseFail => false
  | .httpErr status => 500 ≤ status && status < 600
  | .netFail => true
  | .exhausted => false

/-- The statusCode property of the error object (absent on token, parse and
network errors). -/
def statusCodeOf : FetchErr → Option Nat
  | .httpErr status => some status
  | _ => none

/-- Observable trace of one fetchOpportunities call: result, number of
attempts issued, and the backoff delays slept between attempts, in ms. -/
structure FetchTrace where
  result : Except FetchErr Unit
  attempts : Nat
  delaysMs : List Nat
  deriving Repr

/-- The retry loop body of fetchOpportunities from scraper-final.js, at a
given 1-based attempt number with the given number of loop iterations left:
TokenExpiredError and statusCode 400 propagate at once, non-retryable errors
and the last attempt propagate, otherwise sleep 1000 * 2 ^ (attempt - 1) ms
and retry. -/
def fetchGo (outcomes : Nat → AttemptOutcome) (attempt : Nat) :
    Nat → FetchTrace
  | 0 => ⟨.error .exhausted, 0, []⟩
  | fuel + 1 =>
    match requestOpportunities (outcomes attempt) with
    | .ok v => ⟨.ok v, 1, []⟩
    | .error e =>
      if e = .tokenExpired then ⟨.error e, 1, []⟩
      else if statusCodeOf e = some 400 then ⟨.error e, 1, []⟩
      else
        let isRetryable := retryableFlag e ||
          (match statusCodeOf e with
            | some s => 500 ≤ s && s < 600
            | none => false)
        if !isRetryable || fuel = 0 then ⟨.error e, 1, []⟩
        else
          let rest := fetchGo outcomes (attempt + 1) fuel
          ⟨rest.result, rest.attempts + 1, 1000 * 2 ^ (attempt - 1) :: rest.delaysMs⟩

/-- fetchOpportunities from scraper-final.js: the loop runs attempts
1 .. maxAttempts.  The source fixes this.maxAttempts = 3; the budget is kept
as a parameter so claims about arbitrary budgets can be stated. -/
def fetchOpportunities (outcomes : Nat → AttemptOutcome) (maxAttempts : Nat) :
    FetchTrace :=
  fetchGo outcomes 1 maxAttempts

/-- this.maxAttempts in scraper-final.js. -/
def scraperMaxAttempts : Nat := 3

/-! ## Paginated Crawl Controller (scraper-final.js scrape) -/

/-- One page response as the crawl loop sees it: a response missing
payload or payload.resultados, or a payload with its item list and the
server-reported pageCount. -/
inductive CrawlPage (α : Type) where
  | malformed
  | page (items : List α) (pageCount : Nat)
  deriving Repr

/-- Observable trace of one scrape run: accumulated items and number of page
requests issued. -/
structure CrawlTrace (α : Type) where
  items : List α
  requests : Nat
  deriving Repr, DecidableEq

/-- The page loop of scrape from scraper-final.js at a given page number with
the given number of loop iterations left: a malformed response breaks
(benign end of data, no error), an empty page breaks, items are appended in
server order, and reaching the reported pageCount breaks. -/
def scrapeGo (responses : Nat → CrawlPage α) (page : Nat) (acc : List α) :
    Nat → CrawlTrace α
  | 0 => ⟨acc, 0⟩
  | fuel + 1 =>
    match responses page with
    | .malformed => ⟨acc, 1⟩
    | .page items pageCount =>
      if items.length = 0 then ⟨acc, 1⟩
      else
        let acc2 := acc ++ items
        if pageCount ≤ page then ⟨acc2, 1⟩
        else
          let rest := scrapeGo responses (page + 1) acc2 fuel
          ⟨rest.items, rest.requests + 1⟩

/-- scrape from scraper-final.js: pages 1 .. maxPages, sequentially. -/
def scrape (responses : Nat → CrawlPage α) (maxPages : Nat) : CrawlTrace α :=
  scrapeGo responses 1 [] maxPages

/-! ## Enrichment Batcher (enricher.js) -/

/-- A listing as the enricher consumes it.  The offer counters model the
Number(...) coercion of the source: none stands for a missing or
non-numeric field (NaN, which fails the === 0 check). -/
structure Opportunity where
  codigo : String
  nombre : String
  organismo : String
  montoDisponible : Int
  fechaCierre : String
  misOfertas : Option Int
  numeroOfertas : Option Int
  deriving Repr, DecidableEq

/-- One line item of a detail response (enricher.js mapDetail). -/
structure Producto where
  codigoProducto : String
  cantidad : Int
  descripcion : String
  nombre : String
  unidadCodigo : String
  unidadNombre : String
  deriving Repr, DecidableEq

/-- payload.detalleSolicitud of a detail response, restricted to the fields
mapDetail reads. -/
structure Detail where
  descripcion : String
  moneda : String
  montoMoneda : Int
  montoTotalEstimado : Int
  plazoEntrega : String
  direccion : String
  productos : List Producto
  institucionEmpresa : String
  institucionOrganizacion : String
  institucionRut : String
  deriving Repr, DecidableEq

/-- An enriched listing (enricher.js mapDetail output). -/
structure Enriched where
  codigo : String
  nombre : String
  organismo : String
  montoDisponible : Int
  fechaCierre : String
  detalle : Detail
  deriving Repr, DecidableEq

/-- mapDetail from enricher.js. -/
def mapDetail (opp : Opportunity) (detail : Detail) : Enriched :=
  ⟨opp.codigo, opp.nombre, opp.organismo, opp.montoDisponible,
    opp.fechaCierre, detail⟩

/-- shouldEnrich from enricher.js: both offer counters must equal 0, the
closing date must parse, and the closing time minus now must lie in
[0 ms, 72 h].  parseClose is the parseClosingDate oracle, yielding the
parsed epoch in milliseconds or none. -/
def shouldEnrich (parseClose : String → Option Int) (nowMs : Int)
    (opp : Opportunity) : Bool :=
  let hasNoOffers :=
    match opp.misOfertas, opp.numeroOfertas with
    | some a, some b => decide (a = 0) && decide (b = 0)
    | _, _ => false
  if !hasNoOffers then false
  else
    match parseClose opp.fechaCierre with
    | none => false
    | some t =>
      decide (0 ≤ t - nowMs) && decide (t - nowMs ≤ 72 * 60 * 60 * 1000)

/-- What requestDetailWithRetry plus the detalleSolicitud check deliver for
one item: a detail, a response missing payload.detalleSolicitud, or the
error the retry helper finally rejected with (including TokenExpiredError,
which that helper rethrows without retrying). -/
inductive DetailFetch where
  | got (detail : Detail)
  | noDetail
  | failed (e : FetchErr)
  deriving Repr, DecidableEq

/-- enrichSingle from enricher.js: the try/catch around the detail fetch
catches every error — TokenExpiredError included — logs a skip and returns
null, so any failure drops the item and only that item. -/
def enrichSingle (fetch : String → DetailFetch) (opp : Opportunity) :
    Option Enriched :=
  match fetch opp.codigo with
  | .got d => some (mapDetail opp d)
  | .noDetail => none
  | .failed _ => none

/-- The window loop of enrichOpportunities: slice the filtered list into
windows of size concPred + 1 (the source guarantees concurrency ≥ 1), wait
for every task of a window to settle, and append the fulfilled non-null
values in order.  Promise.allSettled preserves input order inside a window.
The fuel argument only bounds the recursion; every window consumes at least
one item, so fuel = length of the list makes it exact. -/
def enrichGo (fetch : String → DetailFetch) (concPred : Nat) :
    Nat → List Opportunity → List Enriched
  | 0, _ => []
  | _, [] => []
  | fuel + 1, opp :: rest =>
    ((opp :: rest).take (concPred + 1)).filterMap (enrichSingle fetch) ++
      enrichGo fetch concPred fuel ((opp :: rest).drop (concPred + 1))

/-- The window loop applied with exact fuel. -/
def enrichLoop (fetch : String → DetailFetch) (concPred : Nat)
    (l : List Opportunity) : List Enriched :=
  enrichGo fetch concPred l.length l

/-- The options.concurrency normalization of enrichOpportunities: positive
integers pass, anything else falls back to 5. -/
def normConcurrency : Option Nat → Nat
  | some v => if 0 < v then v else 5
  | none => 5

/-- enrichOpportunities from enricher.js: empty input short-circuits, the
eligibility filter runs at one fixed now, an empty filtered list
short-circuits, and the window loop processes the rest.  The getValidToken
call between filter and loop is abstracted into the fetch oracle. -/
def enrichOpportunities (fetch : String → DetailFetch)
    (parseClose : String → Option Int) (nowMs : Int) (concOpt : Option Nat)
    (opps : List Opportunity) : List Enriched :=
  if opps = [] then []
  else
    let conc := normConcurrency concOpt
    let filtered := opps.filter (shouldEnrich parseClose nowMs)
    if filtered = [] then []
    else enrichLoop fetch (conc - 1) filtered

/-! ## Session Health Classifier (session-monitor.js) -/

/-- The three verdict levels. -/
inductive Health where
  | healthy
  | warnLevel
  | criticalLevel
  deriving Repr, DecidableEq

/-- The process exit code of each verdict. -/
def Health.code : Health → Nat
  | .healthy => 0
  | .warnLevel => 1
  | .criticalLevel => 2

/-- The minimum over the parseable expiry signals (Math.min over the known
list), none when no signal is parseable. -/
def minSignal (signals : List (Option ℚ)) : Option ℚ :=
  match signals.filterMap id with
  | [] => none
  | h :: t => some (t.foldl min h)

/-- classify from session-monitor.js: no parseable signal is WARN; otherwise
the minimum is tested in order against 0, CRIT_HOURS and WARN_HOURS. -/
def classify (warnHours critHours : ℚ) (signals : List (Option ℚ)) : Health :=
  match signals.filterMap id with
  | [] => .warnLevel
  | h :: t =>
    let minHours := t.foldl min h
    if minHours ≤ 0 then .criticalLevel
    else if minHours ≤ critHours then .criticalLevel
    else if minHours ≤ warnHours then .warnLevel
    else .healthy

/-- The main routine of session-monitor.js after classification: when the
probe is enabled and not ok, the outcome is replaced by CRITICAL. -/
def finalOutcome (warnHours critHours : ℚ) (signals : List (Option ℚ))
    (doProbe probeOk : Bool) : Health :=
  let outcome := classify warnHours critHours signals
  if doProbe && !probeOk then .criticalLevel else outcome

end MP

/-! ## Theorems -/

/-- C8: the enrichment eligibility predicate at a fixed now accepts a listing
iff its own-offer count is 0, its total-offer count is 0, its closing
timestamp parses, and the parsed closing time minus now lies in the closed
interval [0, 72 hours]; moreover, with now = 0: closing at +50 h is eligible,
closing at +80 h is not, closing at −1 h is not, and one own offer with
closing at +10 h is not. -/
theorem C8_eligibility :
    (∀ (parseClose : String → Option Int) (nowMs : Int) (opp : MP.Opportunity),
      MP.shouldEnrich parseClose nowMs opp = true ↔
        (opp.misOfertas = some 0 ∧ opp.numeroOfertas = some 0 ∧
          ∃ t, parseClose opp.fechaCierre = some t ∧
            0 ≤ t - nowMs ∧ t - nowMs ≤ 72 * 60 * 60 * 1000)) ∧
    MP.shouldEnrich (fun _ => some (50 * 3600000)) 0
      ⟨"A", "n", "o", 1, "d", some 0, some 0⟩ = true ∧
    MP.shouldEnrich (fun _ => some (80 * 3600000)) 0
      ⟨"A", "n", "o", 1, "d", some 0, some 0⟩ = false ∧
    MP.shouldEnrich (fun _ => some (-3600000)) 0
      ⟨"A", "n", "o", 1, "d", some 0, some 0⟩ = false ∧
    MP.shouldEnrich (fun _ => some (10 * 3600000)) 0
      ⟨"A", "n", "o", 1, "d", some 1, some 0⟩ = false := by
  refine ⟨?_, by decide, by decide, by decide, by decide⟩
  intro parseClose nowMs opp
  unfold MP.shouldEnrich
  rcases h1 : opp.misOfertas with _ | a <;>
    rcases h2 : opp.numeroOfertas with _ | b <;>
      simp only [h1, h2]
  · simp
  · simp
  · simp
  · rcases h3 : parseClose opp.fechaCierre with _ | t <;>
      by_cases ha : a = 0 <;> by_cases hb : b = 0 <;>
        simp_all

/-- C9: the health classifier takes the minimum of the parseable signals and
is CRITICAL (code 2) when that minimum is ≤ 0 or ≤ CRIT_HOURS, WARN (code 1)
when it is ≤ WARN_HOURS, and OK (code 0) otherwise; zero parseable signals
give WARN (code 1); an enabled failing probe forces CRITICAL (code 2)
whatever the signals; and at the default thresholds (warn 24, crit 6):
minimum 5 → CRITICAL, 10 → WARN, 48 → OK, no signal → WARN, and a failing
probe over a healthy 48 → CRITICAL. -/
theorem C9_health_classifier :
    (∀ (w c : ℚ) (sigs : List (Option ℚ)), sigs.filterMap id = [] →
      MP.classify w c sigs = .warnLevel ∧ (MP.classify w c sigs).code = 1) ∧
    (∀ (w c : ℚ) (sigs : List (Option ℚ)) (m : ℚ), MP.minSignal sigs = some m →
      ((MP.classify w c sigs = .criticalLevel ↔ (m ≤ 0 ∨ m ≤ c)) ∧
       (MP.classify w c sigs = .warnLevel ↔ (¬(m ≤ 0 ∨ m ≤ c) ∧ m ≤ w)) ∧
       (MP.classify w c sigs = .healthy ↔ (¬(m ≤ 0 ∨ m ≤ c) ∧ ¬ m ≤ w)))) ∧
    (∀ (w c : ℚ) (sigs : List (Option ℚ)),
      MP.finalOutcome w c sigs true false = .criticalLevel ∧
      (MP.finalOutcome w c sigs true false).code = 2) ∧
    MP.classify 24 6 [some 5] = .criticalLevel ∧
    MP.classify 24 6 [some 10] = .warnLevel ∧
    MP.classify 24 6 [some 48] = .healthy ∧
    MP.classify 24 6 [none, none] = .warnLevel ∧
    MP.finalOutcome 24 6 [some 48] true false = .criticalLevel := by
  refine ⟨?_, ?_, ?_, by decide, by decide, by decide, by decide, by decide⟩
  · intro w c sigs h
    unfold MP.classify
    rw [h]
    exact ⟨rfl, rfl⟩
  · intro w c sigs m hm
    unfold MP.minSignal at hm
    unfold MP.classify
    rcases h : sigs.filterMap id with _ | ⟨hd, tl⟩ <;> rw [h] at hm
    · exact absurd hm (by simp)
    · have hm2 : List.foldl min hd tl = m := by simpa using hm
      dsimp only
      rw [hm2]
      split_ifs with h1 h2 h3 <;> simp_all
  · intro w c sigs
    unfold MP.finalOutcome
    exact ⟨rfl, rfl⟩

/-- C2: whenever the current access token is present with a parseable expiry
whose remaining validity is strictly above 300 s, getValidToken returns that
token value, issues no refresh request, leaves the bundle untouched and
writes nothing. -/
theorem C2_fast_path (jwtExp : String → Option Int)
    (refreshHttp : String → MP.RefreshHttp) (now : Int)
    (cookies : List MP.Cookie) (tok : String) (r : Int)
    (htok : MP.accessTokenOf cookies = some tok) (hne : tok ≠ "")
    (hrem : MP.accessRemaining jwtExp now cookies = some r) (hr : 300 < r) :
    MP.getValidToken jwtExp refreshHttp now cookies =
      ⟨.ok tok, 0, cookies, false⟩ := by
  have hfast : MP.fastPathOk jwtExp now cookies = true := by
    unfold MP.fastPathOk
    rw [htok, hrem]
    simp [hne, MP.ACCESS_MIN_VALIDITY_SECONDS, hr]
  unfold MP.getValidToken
  rw [if_pos hfast, htok]

/-- C2 witness: a bundle whose access token expires at epoch 1000000 at
now = 0 is returned as is. -/
theorem C2_fast_path_witness :
    MP.getValidToken (fun _ => none) (fun _ => MP.RefreshHttp.netFail) 0
      [⟨"access_token_ccr", "tokA", "d", "/", true, true, "Lax", some 1000000⟩] =
      ⟨.ok "tokA", 0,
        [⟨"access_token_ccr", "tokA", "d", "/", true, true, "Lax", some 1000000⟩],
        false⟩ :=
  C2_fast_path (fun _ => none) (fun _ => MP.RefreshHttp.netFail) 0
    [⟨"access_token_ccr", "tokA", "d", "/", true, true, "Lax", some 1000000⟩]
    "tokA" 1000000 (by decide) (by decide) (by decide) (by decide)

/-- C3 counterexample: the refresh path performs no validity check on the
server-issued token.  Here the refresh grant succeeds with a token whose JWT
expiry is 100 s away; getValidToken returns it although its remaining
validity, 100 s, is below the 300 s minimum — so the claim that every
returned token has at least 300 s of remaining validity is false. -/
theorem C3_counterexample :
    (MP.getValidToken
        (fun s => if s = "newtok" then some 100 else none)
        (fun _ => MP.RefreshHttp.response 200
          (some ⟨some "newtok", some "rf2", none, none⟩)) 0
        [⟨"access_token_ccr", "old", "d", "/", true, true, "Lax", some 10⟩,
         ⟨"refresh_token", "rftok", "d", "/", true, true, "Lax", some 99999⟩]).result
      = .ok "newtok" ∧
    MP.secondsRemaining
      ((fun s => if s = "newtok" then some 100 else none) "newtok") 0 = some 100 ∧
    ¬ (300 : Int) ≤ 100 := by
  refine ⟨rfl, rfl, by decide⟩

/-- C3 amended: a token returned by getValidToken without any refresh request
is the current access token and its computed remaining validity is strictly
above the 300 s minimum; a token obtained via the refresh path is returned
as delivered by the server, without any validity check. -/
theorem C3_fast_path_validity (jwtExp : String → Option Int)
    (refreshHttp : String → MP.RefreshHttp) (now : Int)
    (cookies : List MP.Cookie) (tok : String)
    (hok : (MP.getValidToken jwtExp refreshHttp now cookies).result = .ok tok)
    (hnoref : (MP.getValidToken jwtExp refreshHttp now cookies).refreshCalls = 0) :
    MP.accessTokenOf cookies = some tok ∧
    ∃ r, MP.accessRemaining jwtExp now cookies = some r ∧
      MP.ACCESS_MIN_VALIDITY_SECONDS < r := by
  unfold MP.getValidToken at hok hnoref
  by_cases hfast : MP.fastPathOk jwtExp now cookies = true
  · rw [if_pos hfast] at hok
    unfold MP.fastPathOk at hfast
    rcases h1 : MP.accessTokenOf cookies with _ | tok2 <;> rw [h1] at hfast hok
    · simp at hfast
    · rcases h2 : MP.accessRemaining jwtExp now cookies with _ | r <;>
        rw [h2] at hfast
      · simp at hfast
      · simp only [Bool.and_eq_true, bne_iff_ne, decide_eq_true_eq] at hfast
        have : tok2 = tok := by simpa using hok
        subst this
        exact ⟨rfl, r, rfl, hfast.2⟩
  · rw [if_neg hfast] at hok hnoref
    unfold MP.refreshPath at hok hnoref
    rcases h1 : MP.findCookie cookies ["refresh_token"] with _ | rc <;>
      rw [h1] at hok hnoref <;> dsimp only at hok hnoref
    · simp at hok
    · by_cases h2 : rc.value = ""
      · rw [if_pos h2] at hok
        simp at hok
      · rw [if_neg h2] at hnoref
        rcases h3 : MP.requestTokenRefresh (refreshHttp rc.value) with e | p <;>
          rw [h3] at hnoref <;> simp at hnoref

/-- C3 witness for the amended claim: the fast-path bundle of the C2 witness
indeed has a computed remaining validity above the minimum. -/
theorem C3_fast_path_validity_witness :
    MP.accessTokenOf
      [⟨"access_token_ccr", "tokA", "d", "/", true, true, "Lax", some 1000000⟩] =
      some "tokA" ∧
    ∃ r, MP.accessRemaining (fun _ => none) 0
        [⟨"access_token_ccr", "tokA", "d", "/", true, true, "Lax", some 1000000⟩] =
        some r ∧ MP.ACCESS_MIN_VALIDITY_SECONDS < r :=
  C3_fast_path_validity (fun _ => none) (fun _ => MP.RefreshHttp.netFail) 0
    [⟨"access_token_ccr", "tokA", "d", "/", true, true, "Lax", some 1000000⟩]
    "tokA" rfl rfl

/-- Helper: every failing shape of the refresh-grant exchange — non-200
status, unparseable body, or missing or empty access_token — makes
requestTokenRefresh reject with TokenRefreshError. -/
theorem requestTokenRefresh_failure (status : Nat)
    (body : Option MP.RefreshPayload)
    (h : status ≠ 200 ∨ body = none ∨
      ∃ p, body = some p ∧ (p.access_token = none ∨ p.access_token = some "")) :
    MP.requestTokenRefresh (.response status body) = .error .tokenRefresh := by
  unfold MP.requestTokenRefresh
  dsimp only
  rcases h with h | h | ⟨p, hp, hacc⟩
  · rw [if_pos h]
  · subst h
    split_ifs <;> rfl
  · subst hp
    dsimp only
    rcases hacc with hacc | hacc <;> rw [hacc] <;> split_ifs <;> rfl

/-- C4: with the fast path unavailable, a missing (or valueless) refresh
record fails with a requiresManualReauth error and zero refresh requests;
and a refresh-grant exchange that returns a non-200 status, an unparseable
body, or a body missing the access_token field fails with a
requiresManualReauth error after exactly one refresh request — never
retried. -/
theorem C4_refresh_failures :
    (∀ (jwtExp : String → Option Int) (refreshHttp : String → MP.RefreshHttp)
        (now : Int) (cookies : List MP.Cookie),
      MP.fastPathOk jwtExp now cookies = false →
      (MP.findCookie cookies ["refresh_token"] = none ∨
        ∃ rc, MP.findCookie cookies ["refresh_token"] = some rc ∧ rc.value = "") →
      MP.getValidToken jwtExp refreshHttp now cookies =
        ⟨.error .tokenExpired, 0, cookies, false⟩ ∧
      MP.TokErr.requiresManualReauth .tokenExpired = true) ∧
    (∀ (jwtExp : String → Option Int) (refreshHttp : String → MP.RefreshHttp)
        (now : Int) (cookies : List MP.Cookie) (rc : MP.Cookie) (status : Nat)
        (body : Option MP.RefreshPayload),
      MP.fastPathOk jwtExp now cookies = false →
      MP.findCookie cookies ["refresh_token"] = some rc → rc.value ≠ "" →
      refreshHttp rc.value = .response status body →
      (status ≠ 200 ∨ body = none ∨
        ∃ p, body = some p ∧ (p.access_token = none ∨ p.access_token = some "")) →
      MP.getValidToken jwtExp refreshHttp now cookies =
        ⟨.error .tokenRefresh, 1, cookies, false⟩ ∧
      MP.TokErr.requiresManualReauth .tokenRefresh = true) := by
  constructor
  · intro jwtExp refreshHttp now cookies hfast habs
    refine ⟨?_, rfl⟩
    unfold MP.getValidToken
    rw [if_neg (by simp [hfast])]
    unfold MP.refreshPath
    rcases habs with h | ⟨rc, hrc, hval⟩
    · rw [h]
    · rw [hrc]
      dsimp only
      rw [if_pos hval]
  · intro jwtExp refreshHttp now cookies rc status body hfast hrc hval hhttp hbad
    refine ⟨?_, rfl⟩
    unfold MP.getValidToken
    rw [if_neg (by simp [hfast])]
    unfold MP.refreshPath
    rw [hrc]
    dsimp only
    rw [if_neg hval, hhttp, requestTokenRefresh_failure status body hbad]

/-- C4 witness: a bundle with an expired access token and no refresh record
fails without a refresh request; with a refresh record but a 500 refresh
response, it fails after exactly one refresh request. -/
theorem C4_refresh_failures_witness :
    MP.getValidToken (fun _ => none) (fun _ => MP.RefreshHttp.netFail) 0
      [⟨"access_token_ccr", "old", "d", "/", true, true, "Lax", some 10⟩] =
      ⟨.error .tokenExpired, 0,
        [⟨"access_token_ccr", "old", "d", "/", true, true, "Lax", some 10⟩],
        false⟩ ∧
    MP.getValidToken (fun _ => none)
      (fun _ => MP.RefreshHttp.response 500 none) 0
      [⟨"access_token_ccr", "old", "d", "/", true, true, "Lax", some 10⟩,
       ⟨"refresh_token", "rftok", "d", "/", true, true, "Lax", some 99999⟩] =
      ⟨.error .tokenRefresh, 1,
        [⟨"access_token_ccr", "old", "d", "/", true, true, "Lax", some 10⟩,
         ⟨"refresh_token", "rftok", "d", "/", true, true, "Lax", some 99999⟩],
        false⟩ :=
  ⟨(C4_refresh_failures.1 (fun _ => none) (fun _ => MP.RefreshHttp.netFail) 0
      [⟨"access_token_ccr", "old", "d", "/", true, true, "Lax", some 10⟩]
      (by decide) (Or.inl (by decide))).1,
    (C4_refresh_failures.2 (fun _ => none)
      (fun _ => MP.RefreshHttp.response 500 none) 0
      [⟨"access_token_ccr", "old", "d", "/", true, true, "Lax", some 10⟩,
       ⟨"refresh_token", "rftok", "d", "/", true, true, "Lax", some 99999⟩]
      ⟨"refresh_token", "rftok", "d", "/", true, true, "Lax", some 99999⟩
      500 none (by decide) (by decide) (by decide) rfl
      (Or.inl (by decide))).1⟩

/-- C9 witness: the classifier clauses instantiated at concrete inputs. -/
theorem C9_health_classifier_witness :
    (MP.classify 24 6 [none] = .warnLevel ∧ (MP.classify 24 6 [none]).code = 1) ∧
    (MP.classify 24 6 [some 5, some 30] = .criticalLevel ↔
      ((5 : ℚ) ≤ 0 ∨ (5 : ℚ) ≤ 6)) :=
  ⟨C9_health_classifier.1 24 6 [none] (by decide),
    (C9_health_classifier.2.1 24 6 [some 5, some 30] 5 (by decide)).1⟩

/-- Helper: the executor issues at least one request whenever the retry loop
has at least one iteration left. -/
theorem fetchGo_attempts_pos (outcomes : Nat → MP.AttemptOutcome)
    (attempt fuel : Nat) (h : 1 ≤ fuel) :
    1 ≤ (MP.fetchGo outcomes attempt fuel).attempts := by
  cases fuel with
  | zero => exact absurd h (by omega)
  | succ n =>
    unfold MP.fetchGo
    rcases h2 : MP.requestOpportunities (outcomes attempt) with e | v <;> simp [h2]
    split_ifs <;> simp

/-- Helper: every run of the executor sleeps exactly the exponential backoff
schedule — the k-th delay is 1000 ms times 2 to the power of the zero-based
index of the attempt it follows. -/
theorem fetchGo_delays_law (outcomes : Nat → MP.AttemptOutcome) :
    ∀ (fuel attempt : Nat), 1 ≤ attempt →
      (MP.fetchGo outcomes attempt fuel).delaysMs =
        (List.range ((MP.fetchGo outcomes attempt fuel).attempts - 1)).map
          (fun i => 1000 * 2 ^ (attempt - 1 + i)) := by
  intro fuel
  induction fuel with
  | zero => intro attempt _; simp [MP.fetchGo]
  | succ n ih =>
    intro attempt hatt
    unfold MP.fetchGo
    rcases h2 : MP.requestOpportunities (outcomes attempt) with e | v <;> simp [h2]
    split_ifs with hh1 hh2 hh3
    · simp
    · simp
    · simp
    · have hn : 1 ≤ n := by
        rcases Nat.eq_zero_or_pos n with h0 | h0
        · subst h0; simp at hh3
        · exact h0
      have hrest := ih (attempt + 1) (by omega)
      have hpos := fetchGo_attempts_pos outcomes (attempt + 1) n hn
      dsimp only
      rw [hrest]
      obtain ⟨k, hk⟩ : ∃ k, (MP.fetchGo outcomes (attempt + 1) n).attempts = k + 1 :=
        ⟨(MP.fetchGo outcomes (attempt + 1) n).attempts - 1, by omega⟩
      rw [hk]
      simp only [Nat.add_sub_cancel, List.range_succ_eq_map, List.map_cons,
        List.map_map, Nat.add_zero]
      congr 1
      refine List.map_congr_left ?_
      intro i _
      simp only [Function.comp_apply]
      congr 2
      omega

/-- C5: the retry executor sleeps 1000 ms times 2 to the attempt index
between retries; three consecutive 503 responses with a budget of
maxRetries = 2 (the fixed maxAttempts = 3 of the source) yield exactly 3
attempts and propagate the last retryable failure; and a 400 status, a 401
status, or a parse failure on the first attempt propagates at once with no
retry for any budget. -/
theorem C5_retry_executor :
    (∀ (outcomes : Nat → MP.AttemptOutcome) (maxRetries : Nat),
      (MP.fetchOpportunities outcomes (maxRetries + 1)).delaysMs =
        (List.range
            ((MP.fetchOpportunities outcomes (maxRetries + 1)).attempts - 1)).map
          (fun i => 1000 * 2 ^ i)) ∧
    (∀ outcomes : Nat → MP.AttemptOutcome,
      outcomes 1 = .response 503 true → outcomes 2 = .response 503 true →
      outcomes 3 = .response 503 true →
      MP.fetchOpportunities outcomes MP.scraperMaxAttempts =
        ⟨.error (.httpErr 503), 3, [1000, 2000]⟩) ∧
    (∀ (outcomes : Nat → MP.AttemptOutcome) (maxRetries : Nat) (b : Bool),
      outcomes 1 = .response 400 b →
      MP.fetchOpportunities outcomes (maxRetries + 1) =
        ⟨.error (.httpErr 400), 1, []⟩) ∧
    (∀ (outcomes : Nat → MP.AttemptOutcome) (maxRetries : Nat) (b : Bool),
      outcomes 1 = .response 401 b →
      MP.fetchOpportunities outcomes (maxRetries + 1) =
        ⟨.error .tokenExpired, 1, []⟩) ∧
    (∀ (outcomes : Nat → MP.AttemptOutcome) (maxRetries : Nat),
      outcomes 1 = .response 200 false →
      MP.fetchOpportunities outcomes (maxRetries + 1) =
        ⟨.error .parseFail, 1, []⟩) := by
  refine ⟨?_, ?_, ?_, ?_, ?_⟩
  · intro outcomes maxRetries
    simpa using fetchGo_delays_law outcomes (maxRetries + 1) 1 (by omega)
  · intro outcomes h1 h2 h3
    show MP.fetchGo outcomes 1 3 = _
    unfold MP.fetchGo
    rw [h1]
    unfold MP.fetchGo
    rw [h2]
    unfold MP.fetchGo
    rw [h3]
    simp [MP.requestOpportunities, MP.retryableFlag, MP.statusCodeOf]
  · intro outcomes maxRetries b h1
    show MP.fetchGo outcomes 1 (maxRetries + 1) = _
    unfold MP.fetchGo
    rw [h1]
    simp [MP.requestOpportunities, MP.statusCodeOf]
  · intro outcomes maxRetries b h1
    show MP.fetchGo outcomes 1 (maxRetries + 1) = _
    unfold MP.fetchGo
    rw [h1]
    simp [MP.requestOpportunities]
  · intro outcomes maxRetries h1
    show MP.fetchGo outcomes 1 (maxRetries + 1) = _
    unfold MP.fetchGo
    rw [h1]
    simp [MP.requestOpportunities, MP.retryableFlag, MP.statusCodeOf]

/-- C5 witness: an all-503 server with the fixed budget of 3 attempts fails
after exactly 3 attempts with backoff delays of 1 s and 2 s. -/
theorem C5_retry_executor_witness :
    MP.fetchOpportunities (fun _ => MP.AttemptOutcome.response 503 true)
      MP.scraperMaxAttempts = ⟨.error (.httpErr 503), 3, [1000, 2000]⟩ :=
  C5_retry_executor.2.1 (fun _ => MP.AttemptOutcome.response 503 true)
    rfl rfl rfl

/-- C6: a 401 response at any attempt rejects with TokenExpiredError and the
loop performs no further attempt from that point — in particular a 401 on
the first attempt makes the total attempt count 1 for every retry
budget. -/
theorem C6_auth_expired_immediate :
    (∀ (outcomes : Nat → MP.AttemptOutcome) (attempt fuel : Nat) (b : Bool),
      outcomes attempt = .response 401 b → 1 ≤ fuel →
      MP.fetchGo outcomes attempt fuel = ⟨.error .tokenExpired, 1, []⟩) ∧
    (∀ (outcomes : Nat → MP.AttemptOutcome) (maxRetries : Nat) (b : Bool),
      outcomes 1 = .response 401 b →
      (MP.fetchOpportunities outcomes (maxRetries + 1)).attempts = 1 ∧
      (MP.fetchOpportunities outcomes (maxRetries + 1)).result =
        .error .tokenExpired) := by
  have main : ∀ (outcomes : Nat → MP.AttemptOutcome) (attempt fuel : Nat) (b : Bool),
      outcomes attempt = .response 401 b → 1 ≤ fuel →
      MP.fetchGo outcomes attempt fuel = ⟨.error .tokenExpired, 1, []⟩ := by
    intro outcomes attempt fuel b h hf
    cases fuel with
    | zero => exact absurd hf (by omega)
    | succ n =>
      unfold MP.fetchGo
      rw [h]
      simp [MP.requestOpportunities]
  refine ⟨main, ?_⟩
  intro outcomes maxRetries b h
  have := main outcomes 1 (maxRetries + 1) b h (by omega)
  unfold MP.fetchOpportunities
  rw [this]
  exact ⟨rfl, rfl⟩

/-- C6 witness: a server answering 401 makes exactly one attempt even with a
large budget. -/
theorem C6_auth_expired_immediate_witness :
    (MP.fetchOpportunities (fun _ => MP.AttemptOutcome.response 401 false)
        (5 + 1)).attempts = 1 ∧
    (MP.fetchOpportunities (fun _ => MP.AttemptOutcome.response 401 false)
        (5 + 1)).result = .error .tokenExpired :=
  C6_auth_expired_immediate.2 (fun _ => MP.AttemptOutcome.response 401 false)
    5 false rfl

/-- Helper: while every page from the current one up to the server-reported
page count is well shaped and non-empty, the crawl requests exactly the
pages up to that count, appending their items in server order, and stops at
the count. -/
theorem scrapeGo_until_pageCount {α : Type} (responses : Nat → MP.CrawlPage α)
    (its : Nat → List α) (pc : Nat) :
    ∀ (fuel page : Nat) (acc : List α), 1 ≤ page → page ≤ pc →
      pc < page + fuel →
      (∀ p, page ≤ p → p ≤ pc → responses p = .page (its p) pc ∧ its p ≠ []) →
      MP.scrapeGo responses page acc fuel =
        ⟨acc ++
            ((List.range (pc + 1 - page)).map (fun i => its (page + i))).flatten,
          pc + 1 - page⟩ := by
  intro fuel
  induction fuel with
  | zero => intro page acc _ h2 h3 _; omega
  | succ n ih =>
    intro page acc h1 h2 h3 hresp
    obtain ⟨hpage, hne⟩ := hresp page (by omega) h2
    unfold MP.scrapeGo
    rw [hpage]
    dsimp only
    rw [if_neg (by simpa [List.length_eq_zero] using hne)]
    by_cases hstop : pc ≤ page
    · rw [if_pos hstop]
      have hone : pc + 1 - page = 1 := by omega
      rw [hone]
      have hr1 : List.range 1 = [0] := rfl
      rw [hr1]
      simp
    · rw [if_neg hstop]
      rw [ih (page + 1) (acc ++ its page) (by omega) (by omega) (by omega)
        (fun p hp1 hp2 => hresp p (by omega) hp2)]
      dsimp only
      obtain ⟨k, hk⟩ : ∃ k, pc + 1 - page = k + 1 := ⟨pc - page, by omega⟩
      have hk2 : pc + 1 - (page + 1) = k := by omega
      rw [hk, hk2]
      have hmap2 : (List.range k).map (fun i => its (page + 1 + i)) =
          (List.range k).map ((fun i => its (page + i)) ∘ Nat.succ) := by
        refine List.map_congr_left ?_
        intro i _
        simp only [Function.comp_apply]
        congr 1
        omega
      simp only [List.range_succ_eq_map, List.map_cons, List.map_map,
        List.flatten_cons, Nat.add_zero, List.append_assoc, hmap2]

/-- C7: the crawl requests pages sequentially from 1 and stops early on a
malformed response (benignly, returning what it has), on an empty page, or
when the page number reaches the server-reported page count; whenever pages
1..pageCount are well shaped and non-empty and pageCount ≤ maxPages, exactly
pageCount requests occur and the items are the concatenation of the pages in
server order, with no re-sort and no dedup; in particular maxPages = 10 with
a constant reported pageCount = 3 yields exactly 3 requests. -/
theorem C7_crawl_termination :
    (∀ (responses : Nat → MP.CrawlPage Nat) (its : Nat → List Nat)
        (pc maxPages : Nat), 1 ≤ pc → pc ≤ maxPages →
      (∀ p, 1 ≤ p → p ≤ pc → responses p = .page (its p) pc ∧ its p ≠ []) →
      MP.scrape responses maxPages =
        ⟨((List.range pc).map (fun i => its (1 + i))).flatten, pc⟩) ∧
    (∀ (responses : Nat → MP.CrawlPage Nat) (i1 i2 i3 : List Nat),
      responses 1 = .page i1 3 → responses 2 = .page i2 3 →
      responses 3 = .page i3 3 → i1 ≠ [] → i2 ≠ [] → i3 ≠ [] →
      MP.scrape responses 10 = ⟨i1 ++ i2 ++ i3, 3⟩) ∧
    (∀ (responses : Nat → MP.CrawlPage Nat) (maxPages : Nat),
      1 ≤ maxPages → responses 1 = .malformed →
      MP.scrape responses maxPages = ⟨[], 1⟩) ∧
    (∀ (responses : Nat → MP.CrawlPage Nat) (maxPages pc : Nat),
      1 ≤ maxPages → responses 1 = .page [] pc →
      MP.scrape responses maxPages = ⟨[], 1⟩) := by
  have main : ∀ (responses : Nat → MP.CrawlPage Nat) (its : Nat → List Nat)
      (pc maxPages : Nat), 1 ≤ pc → pc ≤ maxPages →
      (∀ p, 1 ≤ p → p ≤ pc → responses p = .page (its p) pc ∧ its p ≠ []) →
      MP.scrape responses maxPages =
        ⟨((List.range pc).map (fun i => its (1 + i))).flatten, pc⟩ := by
    intro responses its pc maxPages h1 h2 hresp
    unfold MP.scrape
    rw [scrapeGo_until_pageCount responses its pc maxPages 1 [] (by omega)
      (by omega) (by omega) hresp]
    have : pc + 1 - 1 = pc := by omega
    rw [this]
    simp
  refine ⟨main, ?_, ?_, ?_⟩
  · intro responses i1 i2 i3 h1 h2 h3 hne1 hne2 hne3
    have := main responses
      (fun p => if p = 1 then i1 else if p = 2 then i2 else i3) 3 10
      (by omega) (by omega) ?_
    · have hr : List.range 3 = [0, 1, 2] := rfl
      rw [hr] at this
      simp at this
      simpa [List.append_assoc] using this
    · intro p hp1 hp2
      interval_cases p <;> simp [h1, h2, h3, hne1, hne2, hne3]
  · intro responses maxPages h1 hm
    obtain ⟨n, hn⟩ : ∃ n, maxPages = n + 1 := ⟨maxPages - 1, by omega⟩
    subst hn
    unfold MP.scrape MP.scrapeGo
    rw [hm]
  · intro responses maxPages pc h1 hz
    obtain ⟨n, hn⟩ : ∃ n, maxPages = n + 1 := ⟨maxPages - 1, by omega⟩
    subst hn
    unfold MP.scrape MP.scrapeGo
    rw [hz]
    rfl

/-- C7 witness: with pages reporting pageCount 3 and one item per page,
maxPages = 10 makes exactly 3 requests and returns the pages in order; a
malformed first page yields one request and no items. -/
theorem C7_crawl_termination_witness :
    MP.scrape (fun p => MP.CrawlPage.page [p] 3) 10 =
      ⟨[1] ++ ([2] ++ ([3] ++ [])), 3⟩ ∧
    MP.scrape (fun _ => (MP.CrawlPage.malformed : MP.CrawlPage Nat)) 7 =
      ⟨[], 1⟩ :=
  ⟨C7_crawl_termination.2.1 (fun p => MP.CrawlPage.page [p] 3) [1] [2] [3]
      rfl rfl rfl (by decide) (by decide) (by decide),
    C7_crawl_termination.2.2.1 (fun _ => MP.CrawlPage.malformed) 7
      (by omega) rfl⟩

/-- Helper: with enough fuel the window loop is the filterMap of the
per-item handler over the whole list — every window is processed and each
item contributes exactly its own outcome. -/
theorem enrichGo_filterMap (fetch : String → MP.DetailFetch) (c : Nat) :
    ∀ (fuel : Nat) (l : List MP.Opportunity), l.length ≤ fuel →
      MP.enrichGo fetch c fuel l = l.filterMap (MP.enrichSingle fetch) := by
  intro fuel
  induction fuel with
  | zero =>
    intro l h
    have hl : l = [] := List.length_eq_zero.mp (by omega)
    subst hl
    rfl
  | succ n ih =>
    intro l h
    cases l with
    | nil => rfl
    | cons opp rest =>
      unfold MP.enrichGo
      rw [ih ((opp :: rest).drop (c + 1)) (by
        simp only [List.length_drop, List.length_cons]
        simp only [List.length_cons] at h
        omega)]
      rw [← List.filterMap_append, List.take_append_drop]

/-- C1 counterexample: the first eligible item (code A, in the first window
of size 1) fails with the AuthExpired error class, yet the enrichment run
does not abort and does not propagate it: the return type of the batcher
carries no error at all, the failing item is dropped, and the run continues
into the next window, returning the enrichment of item B. -/
theorem C1_counterexample :
    (fun code => if code = "A"
        then MP.DetailFetch.failed MP.FetchErr.tokenExpired
        else MP.DetailFetch.got ⟨"d", "CLP", 1, 2, "p", "a", [], "e", "o", "r"⟩)
      "A" = MP.DetailFetch.failed MP.FetchErr.tokenExpired ∧
    MP.shouldEnrich (fun _ => some 0) 0
      ⟨"A", "n", "o", 5, "c", some 0, some 0⟩ = true ∧
    MP.enrichOpportunities
      (fun code => if code = "A"
        then MP.DetailFetch.failed MP.FetchErr.tokenExpired
        else MP.DetailFetch.got ⟨"d", "CLP", 1, 2, "p", "a", [], "e", "o", "r"⟩)
      (fun _ => some 0) 0 (some 1)
      [⟨"A", "n", "o", 5, "c", some 0, some 0⟩,
       ⟨"B", "n", "o", 7, "c", some 0, some 0⟩] =
      [⟨"B", "n", "o", 7, "c", ⟨"d", "CLP", 1, 2, "p", "a", [], "e", "o", "r"⟩⟩] :=
  ⟨rfl, rfl, rfl⟩

/-- C1 amended: a detail-fetch failure — the AuthExpired error class
included — is caught at the per-item level: the item is dropped and every
remaining item and window is still processed; the run never aborts on a
per-item failure, and its output is exactly the per-item outcomes of all
eligible items in order. -/
theorem C1_per_item_drop :
    ∀ (fetch : String → MP.DetailFetch) (parseClose : String → Option Int)
      (nowMs : Int) (concOpt : Option Nat) (opps : List MP.Opportunity),
      MP.enrichOpportunities fetch parseClose nowMs concOpt opps =
        (opps.filter (MP.shouldEnrich parseClose nowMs)).filterMap
          (MP.enrichSingle fetch) := by
  intro fetch parseClose nowMs concOpt opps
  unfold MP.enrichOpportunities
  by_cases h1 : opps = []
  · subst h1
    rfl
  · rw [if_neg h1]
    dsimp only
    by_cases h2 : opps.filter (MP.shouldEnrich parseClose nowMs) = []
    · rw [if_pos h2, h2]
      rfl
    · rw [if_neg h2]
      exact enrichGo_filterMap fetch _ _ _ (by omega)

